import Mathlib

/-!
# Verification of the CircuMetal workflow-orchestration core

Shallow embedding, in Lean 4, of the orchestration engine of the
CircuMetal-Agents repository:

* `src/circu_metal/utils/retry.py` (`run_with_retry`),
* `src/api/server.py` (`run_orchestration_task`, `start_orchestration`,
  `add_orchestration_log`, `get_orchestration_status`,
  `get_orchestration_result`),
* `src/circu_metal/orchestrator/orchestrator.py` (`ParallelAgent.process`
  and the fan-out merge section of `Orchestrator.run`),
* `src/circu_metal/agents/base_agent.py` (`BaseCircuMetalAgent.handle`
  and `_async_handle`).

Stage implementations (the LLM-backed agents) are external collaborators:
their outcomes enter the model as universally quantified parameters.
I/O performed by the orchestration code (logging to stdout, writing the
result file, the MongoDB report save) is modelled as non-raising; the
report save may succeed or fail and is a Boolean parameter.
-/

namespace CircuMetal

/-! ## Python strings and dictionaries

`strContains h n` mirrors Python's `n in h` on strings.  A Python `dict`
is embedded as an ordered association list with unique keys; `Dict.set`
mirrors `d[k] = v` (update in place, append new keys at the end),
`Dict.setdefault` mirrors `d.setdefault(k, v)` and `Dict.update` mirrors
`d.update(other)`.
-/

def listStartsWith : List Char → List Char → Bool
  | _, [] => true
  | [], _ :: _ => false
  | a :: as, b :: bs => a == b && listStartsWith as bs

def listHasInfix : List Char → List Char → Bool
  | [], ns => listStartsWith [] ns
  | a :: as, ns => listStartsWith (a :: as) ns || listHasInfix as ns

def strContains (haystack needle : String) : Bool :=
  listHasInfix haystack.toList needle.toList

abbrev Dict (α : Type) := List (String × α)

def Dict.get? {α : Type} : Dict α → String → Option α
  | [], _ => none
  | (k2, v) :: rest, k => if k2 = k then some v else Dict.get? rest k

def Dict.hasKey {α : Type} (d : Dict α) (k : String) : Bool :=
  (Dict.get? d k).isSome

def Dict.set {α : Type} : Dict α → String → α → Dict α
  | [], k, v => [(k, v)]
  | (k2, v2) :: rest, k, v =>
      if k2 = k then (k2, v) :: rest else (k2, v2) :: Dict.set rest k v

def Dict.setdefault {α : Type} (d : Dict α) (k : String) (v : α) : Dict α :=
  if Dict.hasKey d k then d else d ++ [(k, v)]

def Dict.update {α : Type} (d other : Dict α) : Dict α :=
  other.foldl (fun acc kv => Dict.set acc kv.1 kv.2) d

/-- JSON-like values stored in contexts and response envelopes.
Numbers are modelled as rationals (Python floats/ints carry no further
structure relevant to the verified properties). -/
inductive Value where
  | str (s : String)
  | num (q : Rat)
  | bool (b : Bool)
  | null
  | obj (fields : List (String × Value))

/-! ## RetryExecutor: `run_with_retry` (src/circu_metal/utils/retry.py)

The wrapped operation is a function from the attempt index to an
outcome: either a returned value or a raised exception carrying the
Python `str(e)` message.  The embedding returns the full trace of one
call: how many times the operation was invoked, the sleeps performed
(in order), and the final outcome (`.ok v` for a returned value,
`.error (some msg)` for a re-raised exception, `.error none` for the
`raise last_exception` fall-through with `last_exception = None`, which
is reachable only when `retries = 0`).
-/

inductive CallOutcome (α : Type) where
  | success (v : α)
  | failure (msg : String)

/-- Transient-error classification of `run_with_retry` (retry.py lines
20-26): the error message is checked for the fixed set of rate-limit /
quota-exhaustion substrings. -/
def is_rate_limit (error_str : String) : Bool :=
  strContains error_str "429" ||
  strContains error_str "RESOURCE_EXHAUSTED" ||
  strContains error_str "Quota exceeded" ||
  strContains error_str "Value: 100%"

structure RetryTrace (α : Type) where
  calls : Nat
  sleeps : List Nat
  outcome : Except (Option String) α

/-- The `for i in range(retries)` loop of `run_with_retry`, with
`fuel = retries - i` remaining iterations.  `fuel = 0` after a transient
failure corresponds to `i == retries - 1` (last attempt: re-raise). -/
def retryAux {α : Type} (op : Nat → CallOutcome α) : Nat → Nat → Nat → RetryTrace α
  | 0, _, _ => ⟨0, [], .error none⟩
  | fuel + 1, i, delay =>
    match op i with
    | .success v => ⟨1, [], .ok v⟩
    | .failure msg =>
      if is_rate_limit msg then
        if fuel = 0 then
          ⟨1, [], .error (some msg)⟩
        else
          let rest := retryAux op fuel (i + 1) (delay * 2)
          ⟨1 + rest.calls, delay :: rest.sleeps, rest.outcome⟩
      else
        ⟨1, [], .error (some msg)⟩

/-- `run_with_retry(coro_func, retries=5, initial_delay=60)`:
the trace of the whole call. -/
def run_with_retry {α : Type} (op : Nat → CallOutcome α)
    (retries : Nat) (initial_delay : Nat) : RetryTrace α :=
  retryAux op retries 0 initial_delay

/-- The operation fails transiently on attempts `i, i+1, ..., i+k-1` and
succeeds on attempt `i+k`, with `k` strictly below the remaining fuel:
the loop makes `k+1` calls, sleeps `delay * 2^j` before the `j+1`-st
retry, and returns the success value. -/
theorem retryAux_transient_then_success {α : Type} (op : Nat → CallOutcome α)
    (v : α) :
    ∀ (k fuel i delay : Nat), k < fuel →
    (∀ j, j < k → ∃ m, op (i + j) = .failure m ∧ is_rate_limit m = true) →
    op (i + k) = .success v →
    retryAux op fuel i delay =
      ⟨k + 1, (List.range k).map (fun j => delay * 2 ^ j), .ok v⟩ := by
  intro k
  induction k with
  | zero =>
    intro fuel i delay hk _ hsucc
    match fuel, hk with
    | fuel + 1, _ =>
      simp only [retryAux]
      rw [show i + 0 = i from rfl] at hsucc
      rw [hsucc]
      simp
  | succ k ih =>
    intro fuel i delay hk hfail hsucc
    match fuel, hk with
    | fuel + 1, hk =>
      have hk' : k < fuel := Nat.lt_of_succ_lt_succ hk
      obtain ⟨m, hm, hrl⟩ := hfail 0 (Nat.succ_pos k)
      rw [show i + 0 = i from rfl] at hm
      have hfuel : fuel ≠ 0 := Nat.pos_iff_ne_zero.mp (Nat.lt_of_le_of_lt (Nat.zero_le k) hk')
      have hrest := ih fuel (i + 1) (delay * 2) hk'
        (fun j hj => by
          obtain ⟨m2, hm2, hrl2⟩ := hfail (j + 1) (Nat.succ_lt_succ hj)
          exact ⟨m2, by rw [show i + 1 + j = i + (j + 1) by omega]; exact hm2, hrl2⟩)
        (by rw [show i + 1 + k = i + (k + 1) by omega]; exact hsucc)
      have hstep : retryAux op (fuel + 1) i delay =
          ⟨1 + (retryAux op fuel (i + 1) (delay * 2)).calls,
           delay :: (retryAux op fuel (i + 1) (delay * 2)).sleeps,
           (retryAux op fuel (i + 1) (delay * 2)).outcome⟩ := by
        simp only [retryAux, hm, hrl, hfuel, if_true, if_false, ite_false]
      rw [hstep, hrest]
      have hlist : delay :: (List.range k).map (fun j => delay * 2 * 2 ^ j)
          = (List.range (k + 1)).map (fun j => delay * 2 ^ j) := by
        rw [List.range_succ_eq_map, List.map_cons, List.map_map]
        refine congrArg₂ _ (by simp) ?_
        refine List.map_congr_left ?_
        intro j _
        simp only [Function.comp_apply, Nat.succ_eq_add_one, pow_succ]
        ring
      rw [RetryTrace.mk.injEq]
      exact ⟨by show 1 + (k + 1) = k + 1 + 1; omega, hlist, rfl⟩

/-- The operation fails transiently on every remaining attempt: the loop
makes exactly `fuel` calls and re-raises the last error. -/
theorem retryAux_all_transient {α : Type} (op : Nat → CallOutcome α) :
    ∀ (fuel i delay : Nat), 1 ≤ fuel →
    (∀ j, j < fuel → ∃ m, op (i + j) = .failure m ∧ is_rate_limit m = true) →
    (retryAux op fuel i delay).calls = fuel ∧
    ∃ m, op (i + fuel - 1) = .failure m ∧
      (retryAux op fuel i delay).outcome = .error (some m) := by
  intro fuel
  induction fuel with
  | zero => intro i delay h; omega
  | succ fuel ih =>
    intro i delay _ hfail
    obtain ⟨m, hm, hrl⟩ := hfail 0 (Nat.succ_pos fuel)
    rw [show i + 0 = i from rfl] at hm
    by_cases hfuel : fuel = 0
    · subst hfuel
      have hstep : retryAux op 1 i delay = ⟨1, [], .error (some m)⟩ := by
        simp only [retryAux, hm, hrl, if_true, ite_true]
      rw [hstep]
      exact ⟨rfl, m, by rw [show i + 1 - 1 = i + 0 from rfl, show i + 0 = i from rfl]; exact hm, rfl⟩
    · have h1 : 1 ≤ fuel := Nat.pos_iff_ne_zero.mpr hfuel
      obtain ⟨hcalls, m2, hm2, hout⟩ := ih (i + 1) (delay * 2) h1
        (fun j hj => by
          obtain ⟨m3, hm3, hrl3⟩ := hfail (j + 1) (Nat.succ_lt_succ hj)
          exact ⟨m3, by rw [show i + 1 + j = i + (j + 1) by omega]; exact hm3, hrl3⟩)
      have hstep : retryAux op (fuel + 1) i delay =
          ⟨1 + (retryAux op fuel (i + 1) (delay * 2)).calls,
           delay :: (retryAux op fuel (i + 1) (delay * 2)).sleeps,
           (retryAux op fuel (i + 1) (delay * 2)).outcome⟩ := by
        simp only [retryAux, hm, hrl, hfuel, if_true, if_false, ite_false]
      rw [hstep]
      refine ⟨by simp only [hcalls]; omega, m2, ?_, by simpa using hout⟩
      rw [show i + (fuel + 1) - 1 = i + 1 + fuel - 1 by omega]
      exact hm2

/-- A successful retry outcome originates from some successful attempt. -/
theorem retryAux_ok_origin {α : Type} (op : Nat → CallOutcome α) :
    ∀ (fuel i delay : Nat) (v : α),
    (retryAux op fuel i delay).outcome = .ok v →
    ∃ j, op (i + j) = .success v := by
  intro fuel
  induction fuel with
  | zero => intro i delay v h; simp [retryAux] at h
  | succ fuel ih =>
    intro i delay v h
    simp only [retryAux] at h
    match hop : op i with
    | .success w =>
      rw [hop] at h
      simp at h
      exact ⟨0, by rw [show i + 0 = i from rfl, hop, h]⟩
    | .failure msg =>
      rw [hop] at h
      by_cases hrl : is_rate_limit msg
      · by_cases hfuel : fuel = 0
        · subst hfuel; simp [hrl] at h
        · simp only [hrl, if_true, hfuel, if_false] at h
          obtain ⟨j, hj⟩ := ih (i + 1) (delay * 2) v h
          exact ⟨j + 1, by rw [show i + (j + 1) = i + 1 + j by omega]; exact hj⟩
      · simp [hrl] at h

/-- C1: the retry executor invoked on an operation failing transiently
exactly `k < max_attempts` times and then succeeding calls it `k+1`
times and returns the success value; on an operation failing
transiently on every attempt it calls it exactly `max_attempts` times
and re-raises the last error; on an operation failing non-transiently
on the first call it calls it exactly once. -/
theorem claim_C1 {α : Type} (op : Nat → CallOutcome α)
    (max_attempts k initial_delay : Nat) (v : α) :
    (k < max_attempts →
      (∀ j, j < k → ∃ m, op j = .failure m ∧ is_rate_limit m = true) →
      op k = .success v →
      (run_with_retry op max_attempts initial_delay).calls = k + 1 ∧
      (run_with_retry op max_attempts initial_delay).outcome = .ok v) ∧
    (1 ≤ max_attempts →
      (∀ j, j < max_attempts → ∃ m, op j = .failure m ∧ is_rate_limit m = true) →
      (run_with_retry op max_attempts initial_delay).calls = max_attempts ∧
      ∃ m, op (max_attempts - 1) = .failure m ∧
        (run_with_retry op max_attempts initial_delay).outcome = .error (some m)) ∧
    (∀ m, 1 ≤ max_attempts → op 0 = .failure m → is_rate_limit m = false →
      (run_with_retry op max_attempts initial_delay).calls = 1 ∧
      (run_with_retry op max_attempts initial_delay).outcome = .error (some m)) := by
  refine ⟨?_, ?_, ?_⟩
  · intro hk hfail hsucc
    have h := retryAux_transient_then_success op v k max_attempts 0 initial_delay hk
      (fun j hj => by simpa using hfail j hj) (by simpa using hsucc)
    rw [run_with_retry, h]
    exact ⟨rfl, rfl⟩
  · intro h1 hfail
    have h := retryAux_all_transient op max_attempts 0 initial_delay h1
      (fun j hj => by simpa using hfail j hj)
    rw [run_with_retry]
    simpa using h
  · intro m h1 hm hrl
    match max_attempts, h1 with
    | fuel + 1, _ =>
      have hstep : run_with_retry op (fuel + 1) initial_delay = ⟨1, [], .error (some m)⟩ := by
        simp only [run_with_retry, retryAux, hm, hrl, Bool.false_eq_true, if_false, ite_false]
      rw [hstep]
      exact ⟨rfl, rfl⟩

def opC1TransThenOk : Nat → CallOutcome Nat :=
  fun i => if i < 2 then .failure "Error 429: rate limited" else .success 7

def opC1AllTrans : Nat → CallOutcome Nat :=
  fun _ => .failure "RESOURCE_EXHAUSTED: quota"

def opC1NonTrans : Nat → CallOutcome Nat :=
  fun _ => .failure "ValueError: missing field"

/-- Witness for C1: concrete operations exercising all three retry
scenarios at `max_attempts = 5`, `initial_delay = 60`. -/
theorem claim_C1_witness :
    (run_with_retry opC1TransThenOk 5 60).calls = 3 ∧
    (run_with_retry opC1TransThenOk 5 60).outcome = .ok 7 ∧
    (run_with_retry opC1AllTrans 5 60).calls = 5 ∧
    (run_with_retry opC1AllTrans 5 60).outcome = .error (some "RESOURCE_EXHAUSTED: quota") ∧
    (run_with_retry opC1NonTrans 5 60).calls = 1 ∧
    (run_with_retry opC1NonTrans 5 60).outcome = .error (some "ValueError: missing field") := by
  obtain ⟨ha1, ha2⟩ := (claim_C1 opC1TransThenOk 5 2 60 7).1 (by omega)
    (fun j hj => ⟨"Error 429: rate limited", by
      rcases (by omega : j = 0 ∨ j = 1) with h | h <;> subst h <;> rfl, rfl⟩)
    rfl
  obtain ⟨hb1, m, hm, hb2⟩ := (claim_C1 opC1AllTrans 5 0 60 0).2.1 (by omega)
    (fun j _ => ⟨"RESOURCE_EXHAUSTED: quota", rfl, rfl⟩)
  have hmeq : (.failure "RESOURCE_EXHAUSTED: quota" : CallOutcome Nat) = .failure m := by
    rw [← hm]; rfl
  injection hmeq with hmeq2
  subst hmeq2
  obtain ⟨hc1, hc2⟩ := (claim_C1 opC1NonTrans 5 0 60 0).2.2 "ValueError: missing field"
    (by omega) rfl rfl
  exact ⟨ha1, ha2, hb1, hb2, hc1, hc2⟩

/-- C4: an error is treated as transient exactly when its message
contains one of the fixed rate-limit/quota signals; on transient
failures the executor sleeps the current delay and doubles it, so the
sleep before the `j+1`-st retry equals `initial_delay * 2 ^ j`; on a
non-transient failure it re-raises immediately with no sleep and no
further invocation. -/
theorem claim_C4 {α : Type} (op : Nat → CallOutcome α)
    (retries k initial_delay : Nat) (v : α) (m : String) :
    (is_rate_limit m = true ↔
      (strContains m "429" = true ∨ strContains m "RESOURCE_EXHAUSTED" = true ∨
       strContains m "Quota exceeded" = true ∨ strContains m "Value: 100%" = true)) ∧
    (k < retries →
      (∀ j, j < k → ∃ msg, op j = .failure msg ∧ is_rate_limit msg = true) →
      op k = .success v →
      (run_with_retry op retries initial_delay).sleeps =
        (List.range k).map (fun j => initial_delay * 2 ^ j)) ∧
    (1 ≤ retries → op 0 = .failure m → is_rate_limit m = false →
      (run_with_retry op retries initial_delay).calls = 1 ∧
      (run_with_retry op retries initial_delay).sleeps = [] ∧
      (run_with_retry op retries initial_delay).outcome = .error (some m)) := by
  refine ⟨?_, ?_, ?_⟩
  · simp [is_rate_limit, Bool.or_eq_true, or_assoc]
  · intro hk hfail hsucc
    have h := retryAux_transient_then_success op v k retries 0 initial_delay hk
      (fun j hj => by simpa using hfail j hj) (by simpa using hsucc)
    rw [run_with_retry, h]
  · intro h1 hm hrl
    match retries, h1 with
    | fuel + 1, _ =>
      have hstep : run_with_retry op (fuel + 1) initial_delay = ⟨1, [], .error (some m)⟩ := by
        simp only [run_with_retry, retryAux, hm, hrl, Bool.false_eq_true, if_false, ite_false]
      rw [hstep]
      exact ⟨rfl, rfl, rfl⟩

def opC4Trans : Nat → CallOutcome Nat :=
  fun i => if i < 3 then .failure "Quota exceeded for quota metric" else .success 1

def opC4NonTrans : Nat → CallOutcome Nat :=
  fun _ => .failure "KeyError: material"

/-- Witness for C4: a message containing `Quota exceeded` is classified
transient and produces sleeps `[60, 120, 240]` before the three retries;
a plain `KeyError` is re-raised at once with no sleep. -/
theorem claim_C4_witness :
    (is_rate_limit "Quota exceeded for quota metric" = true) ∧
    (run_with_retry opC4Trans 5 60).sleeps = [60, 120, 240] ∧
    (run_with_retry opC4NonTrans 5 60).calls = 1 ∧
    (run_with_retry opC4NonTrans 5 60).sleeps = [] ∧
    (run_with_retry opC4NonTrans 5 60).outcome = .error (some "KeyError: material") := by
  have ha := (claim_C4 opC4Trans 5 3 60 1 "Quota exceeded for quota metric").1.mpr
    (Or.inr (Or.inr (Or.inl rfl)))
  have hb := (claim_C4 opC4Trans 5 3 60 1 "Quota exceeded for quota metric").2.1 (by omega)
    (fun j hj => ⟨"Quota exceeded for quota metric", by
      rcases (by omega : j = 0 ∨ j = 1 ∨ j = 2) with h | h | h <;> subst h <;> rfl, rfl⟩)
    rfl
  obtain ⟨hc1, hc2, hc3⟩ := (claim_C4 opC4NonTrans 5 0 60 1 "KeyError: material").2.2
    (by omega) rfl rfl
  refine ⟨ha, ?_, hc1, hc2, hc3⟩
  rw [hb]
  rfl

/-! ## The orchestration background task (src/api/server.py)

`run_orchestration_task` is embedded as a pure function of the stage
outcomes.  Each mutation of the run's registry entry
(`orchestration_runs[run_id]`) and each stage invocation is recorded as
an `Event` in program order; the final record is obtained by folding
the events over the record created by `start_orchestration`.
The nine agent `handle` calls are external collaborators; each returns
a response envelope with a `status`, a `data` map and a `log` string
(the fields `run_orchestration_task` reads).  The MongoDB report save
(`create_report`) may succeed or raise; file output and `print`/logger
calls do not touch the record and are not modelled.
-/

structure StageResult where
  status : String
  data : Dict Value
  log : String

/-- One mutation of the run's registry entry, or one stage invocation. -/
inductive Event where
  | setStatus (s : String)
  | setProgress (p : Nat)
  | setCurrentAgent (a : Option String)
  | setError (e : String)
  | setCompletedAt
  | setResult
  | setReportId
  | appendLog (agent level message : String)
  | invoke (agent : String)
  deriving DecidableEq, Repr

/-- The run record held in `orchestration_runs[run_id]`.  `created_at`
is set once at creation and never reassigned; timestamps carry no
information relevant to the verified properties, so `completed_at` is
modelled by presence and `result`/`report_id` by presence flags. -/
structure RunRecord where
  status : String
  progress : Nat
  current_agent : Option String
  logs : List (String × String × String)
  error : Option String
  completed_at : Bool
  has_result : Bool
  has_report_id : Bool
  deriving DecidableEq, Repr

/-- The record created by `start_orchestration` (server.py 560-569). -/
def initialRunRecord : RunRecord :=
  { status := "starting", progress := 0, current_agent := none, logs := [],
    error := none, completed_at := false, has_result := false, has_report_id := false }

/-- Effect of one mutation on the record; `add_orchestration_log`
appends to `logs`, a stage invocation touches no field. -/
def applyEvent (r : RunRecord) : Event → RunRecord
  | .setStatus s => { r with status := s }
  | .setProgress p => { r with progress := p }
  | .setCurrentAgent a => { r with current_agent := a }
  | .setError e => { r with error := some e }
  | .setCompletedAt => { r with completed_at := true }
  | .setResult => { r with has_result := true }
  | .setReportId => { r with has_report_id := true }
  | .appendLog agent level message => { r with logs := r.logs ++ [(agent, level, message)] }
  | .invoke _ => r

def finalRecord (events : List Event) : RunRecord :=
  events.foldl applyEvent initialRunRecord

/-- Outcomes of the external collaborators for one run: the nine agent
envelopes, whether the MongoDB report save succeeds, and the run input
assembled by `start_orchestration`. -/
structure StageOutcomes where
  userInput : Dict Value
  dataRes : StageResult
  estimationRes : StageResult
  lcaRes : StageResult
  circularityRes : StageResult
  scenarioRes : StageResult
  complianceRes : StageResult
  visualizationRes : StageResult
  explainRes : StageResult
  critiqueRes : StageResult
  reportSaveOk : Bool

/-- Events of one optional step (steps 2-7 and 9 of
`run_orchestration_task` share this shape): set `current_agent`, set
`progress`, log an info line, invoke the agent, then log success or
warning by the returned status.  Optional-stage failure is absorbed. -/
def optStepEvents (agent : String) (prog : Nat)
    (infoMsg okMsg warnMsg : String) (res : StageResult) : List Event :=
  [.setCurrentAgent (some agent), .setProgress prog,
   .appendLog agent "info" infoMsg, .invoke agent] ++
  (if res.status = "success"
    then [.appendLog agent "success" okMsg]
    else [.appendLog agent "warning" warnMsg])

/-- Events of step 8 (ExplainAgent): on success the report is saved to
MongoDB, which sets `report_id` and logs success, or logs a warning if
the save raises. -/
def explainStepEvents (res : StageResult) (saveOk : Bool) : List Event :=
  [.setCurrentAgent (some "ExplainAgent"), .setProgress 90,
   .appendLog "ExplainAgent" "info" "Generating comprehensive narrative report...",
   .invoke "ExplainAgent"] ++
  (if res.status = "success" then
    [.appendLog "ExplainAgent" "success" "Report generation complete"] ++
    (if saveOk then
      [.setReportId, .appendLog "ExplainAgent" "success" "Report saved to MongoDB"]
    else
      [.appendLog "ExplainAgent" "warning" "Failed to save report to MongoDB"])
  else
    [.appendLog "ExplainAgent" "warning" "Report generation had issues"])

/-- The event trace of `run_orchestration_task` (server.py 603-842).
A required-stage failure at step 1 sets `failed`/error and returns;
otherwise steps 2-9 run (optional failures absorbed) and the run is
finalized as `completed`. -/
def taskEvents (o : StageOutcomes) : List Event :=
  [.setStatus "running",
   .appendLog "Orchestrator" "info" "Initializing CircuMetal Multi-Agent System...",
   .setCurrentAgent (some "DataAgent"), .setProgress 10,
   .appendLog "DataAgent" "info" "Starting data collection and validation...",
   .appendLog "DataAgent" "info" "Input: (run input)",
   .invoke "DataAgent"] ++
  (if o.dataRes.status = "success" then
    [.appendLog "DataAgent" "success" "Data validation complete"] ++
    optStepEvents "EstimationAgent" 20 "Estimating missing parameters using AI..."
      "Parameter estimation complete"
      ("Estimation had issues: " ++ o.estimationRes.log) o.estimationRes ++
    optStepEvents "LCAAgent" 35 "Calculating environmental impacts (GWP, Energy, Water)..."
      "LCA calculations complete"
      ("LCA had issues: " ++ o.lcaRes.log) o.lcaRes ++
    optStepEvents "CircularityAgent" 50 "Computing Material Circularity Indicator (MCI)..."
      "Circularity metrics computed"
      ("Circularity had issues: " ++ o.circularityRes.log) o.circularityRes ++
    optStepEvents "ScenarioAgent" 60 "Generating alternative scenarios..."
      "Scenarios generated" "Scenario generation had issues" o.scenarioRes ++
    optStepEvents "ComplianceAgent" 70 "Checking regulatory compliance (EU Battery Reg, CBAM)..."
      "Compliance check complete" "Compliance check had issues" o.complianceRes ++
    optStepEvents "VisualizationAgent" 80 "Generating Sankey diagrams and charts..."
      "Visualizations generated" "Visualization had issues" o.visualizationRes ++
    explainStepEvents o.explainRes o.reportSaveOk ++
    optStepEvents "CritiqueAgent" 95 "Reviewing results for accuracy and improvements..."
      "Quality review complete" "Critique had issues" o.critiqueRes ++
    [.setStatus "completed", .setProgress 100, .setCurrentAgent none,
     .setCompletedAt, .setResult,
     .appendLog "Orchestrator" "success" "Multi-agent analysis complete!"]
  else
    [.appendLog "DataAgent" "error" ("Failed: " ++ o.dataRes.log),
     .setStatus "failed", .setError "Data Agent failed"])

/-- The `context` variable at the end of `run_orchestration_task`:
a successful DataAgent or EstimationAgent *replaces* it with the
returned `data` (server.py 636, 654); successful LCA and Circularity
steps merge via `context.update(...)` (670, 686); later steps do not
write to it. -/
def taskContext (o : StageOutcomes) : Dict Value :=
  if o.dataRes.status = "success" then
    let context := o.dataRes.data
    let context := if o.estimationRes.status = "success" then o.estimationRes.data else context
    let context := if o.lcaRes.status = "success" then Dict.update context o.lcaRes.data else context
    let context := if o.circularityRes.status = "success" then Dict.update context o.circularityRes.data else context
    context
  else o.userInput

/-- The `history` dictionary: one entry per invoked stage, in
invocation order. -/
def taskHistory (o : StageOutcomes) : Dict StageResult :=
  if o.dataRes.status = "success" then
    [("data_agent", o.dataRes), ("estimation_agent", o.estimationRes),
     ("lca_agent", o.lcaRes), ("circularity_agent", o.circularityRes),
     ("scenario_agent", o.scenarioRes), ("compliance_agent", o.complianceRes),
     ("visualization_agent", o.visualizationRes), ("explain_agent", o.explainRes),
     ("critique_agent", o.critiqueRes)]
  else
    [("data_agent", o.dataRes)]

/-- Progress value written by an event, if any. -/
def progressOf : Event → Option Nat
  | .setProgress p => some p
  | _ => none

/-- Agent invoked by an event, if any. -/
def invokeOf : Event → Option String
  | .invoke a => some a
  | _ => none

def invokedAgents (events : List Event) : List String :=
  events.filterMap invokeOf

def isTerminalSet : Event → Bool
  | .setStatus s => s = "completed" || s = "failed"
  | _ => false

/-- Events strictly after the first write of a terminal status. -/
def afterFirstTerminal (events : List Event) : List Event :=
  (events.dropWhile (fun e => !isTerminalSet e)).drop 1

def isRecordMutation : Event → Bool
  | .invoke _ => false
  | _ => true

def isAppendLog : Event → Bool
  | .appendLog _ _ _ => true
  | _ => false

/-- Mutations allowed after the terminal status write by the amended
C7: the finalization writes of `run_orchestration_task` (progress 100,
clearing `current_agent`, `completed_at`, `result`, `error`) and log
entries; never a status write, a stage invocation, or a report id. -/
def isFinalizationWrite : Event → Bool
  | .setProgress p => p = 100
  | .setCurrentAgent a => a.isNone
  | .setCompletedAt => true
  | .setResult => true
  | .setError _ => true
  | .appendLog _ _ _ => true
  | .setStatus _ => false
  | .invoke _ => false
  | .setReportId => false

/-! ### Dictionary key lemmas -/

theorem Dict.hasKey_set {α : Type} (d : Dict α) (k k2 : String) (v : α)
    (h : Dict.hasKey d k = true) : Dict.hasKey (Dict.set d k2 v) k = true := by
  induction d with
  | nil => simp [Dict.hasKey, Dict.get?] at h
  | cons a rest ih =>
    obtain ⟨k1, v1⟩ := a
    by_cases hk : k1 = k2
    · subst hk
      by_cases hk2 : k1 = k
      · subst hk2
        simp [Dict.set, Dict.hasKey, Dict.get?]
      · have h2 : Dict.hasKey rest k = true := by
          simpa [Dict.hasKey, Dict.get?, hk2] using h
        simpa [Dict.set, Dict.hasKey, Dict.get?, hk2] using h2
    · by_cases hk2 : k1 = k
      · subst hk2
        simp [Dict.set, Dict.hasKey, Dict.get?, hk]
      · have h2 : Dict.hasKey rest k = true := by
          simpa [Dict.hasKey, Dict.get?, hk2] using h
        simpa [Dict.set, Dict.hasKey, Dict.get?, hk, hk2] using ih h2

theorem Dict.hasKey_set_self {α : Type} (d : Dict α) (k : String) (v : α) :
    Dict.hasKey (Dict.set d k v) k = true := by
  induction d with
  | nil => simp [Dict.set, Dict.hasKey, Dict.get?]
  | cons a rest ih =>
    by_cases hk : a.1 = k
    · simp [Dict.set, Dict.hasKey, Dict.get?, hk]
    · simp only [Dict.set, hk, if_false, ite_false]
      simpa [Dict.hasKey, Dict.get?, hk] using ih

theorem Dict.hasKey_update_left {α : Type} (d2 : Dict α) :
    ∀ (d : Dict α) (k : String), Dict.hasKey d k = true →
    Dict.hasKey (Dict.update d d2) k = true := by
  induction d2 with
  | nil => intro d k h; exact h
  | cons a rest ih =>
    intro d k h
    exact ih (Dict.set d a.1 a.2) k (Dict.hasKey_set d k a.1 a.2 h)

theorem Dict.hasKey_update_right {α : Type} (d2 : Dict α) :
    ∀ (d : Dict α) (k : String), Dict.hasKey d2 k = true →
    Dict.hasKey (Dict.update d d2) k = true := by
  induction d2 with
  | nil => intro d k h; simp [Dict.hasKey, Dict.get?] at h
  | cons a rest ih =>
    intro d k h
    by_cases hk : a.1 = k
    · exact Dict.hasKey_update_left rest (Dict.set d a.1 a.2) k
        (hk ▸ Dict.hasKey_set_self d a.1 a.2)
    · refine ih (Dict.set d a.1 a.2) k ?_
      simpa [Dict.hasKey, Dict.get?, hk] using h

/-! ### Per-step trace lemmas -/

theorem progress_optStep (agent : String) (prog : Nat)
    (infoMsg okMsg warnMsg : String) (res : StageResult) :
    (optStepEvents agent prog infoMsg okMsg warnMsg res).filterMap progressOf = [prog] := by
  unfold optStepEvents
  by_cases hc : res.status = "success" <;> simp [hc, progressOf]

theorem progress_explainStep (res : StageResult) (saveOk : Bool) :
    (explainStepEvents res saveOk).filterMap progressOf = [90] := by
  unfold explainStepEvents
  by_cases hc : res.status = "success" <;> by_cases hs : saveOk <;> simp [hc, hs, progressOf]

theorem noTerminal_optStep (agent : String) (prog : Nat)
    (infoMsg okMsg warnMsg : String) (res : StageResult) :
    ∀ e ∈ optStepEvents agent prog infoMsg okMsg warnMsg res, isTerminalSet e = false := by
  intro e he
  cases e <;> try rfl
  case setStatus s =>
    exfalso
    unfold optStepEvents at he
    by_cases hc : res.status = "success" <;> simp [hc] at he

theorem noTerminal_explainStep (res : StageResult) (saveOk : Bool) :
    ∀ e ∈ explainStepEvents res saveOk, isTerminalSet e = false := by
  intro e he
  cases e <;> try rfl
  case setStatus s =>
    exfalso
    unfold explainStepEvents at he
    by_cases hc : res.status = "success" <;> by_cases hs : saveOk <;> simp [hc, hs] at he

theorem noTerminal_append {l1 l2 : List Event}
    (h1 : ∀ e ∈ l1, isTerminalSet e = false) (h2 : ∀ e ∈ l2, isTerminalSet e = false) :
    ∀ e ∈ l1 ++ l2, isTerminalSet e = false := by
  intro e he
  rcases List.mem_append.mp he with hmem | hmem
  · exact h1 e hmem
  · exact h2 e hmem

theorem afterFirstTerminal_append (l1 l2 : List Event)
    (h : ∀ e ∈ l1, isTerminalSet e = false) :
    afterFirstTerminal (l1 ++ l2) = afterFirstTerminal l2 := by
  unfold afterFirstTerminal
  induction l1 with
  | nil => rfl
  | cons a l ih =>
    have ha : isTerminalSet a = false := h a (List.mem_cons_self a l)
    simp only [List.cons_append, List.dropWhile_cons, ha, Bool.not_false, if_true, ite_true]
    exact ih (fun e he => h e (List.mem_cons_of_mem a he))

/-! ### Concrete runs used as witnesses and counterexamples -/

def stageOk (d : Dict Value) : StageResult := ⟨"success", d, ""⟩

def stageFail (logMsg : String) : StageResult := ⟨"failure", [], logMsg⟩

/-- All nine stages succeed and the report save succeeds. -/
def outcomesAllOk : StageOutcomes :=
  ⟨[("material", .str "Aluminium Scrap")],
   stageOk [("material", .str "Aluminium Scrap"), ("validated", .bool true)],
   stageOk [("est_params", .num 1)],
   stageOk [("gwp", .num 1800)],
   stageOk [("mci", .num (2 / 5 : Rat))],
   stageOk [], stageOk [], stageOk [], stageOk [], stageOk [], true⟩

/-- Intake and Estimation succeed; every later stage fails. -/
def outcomesEstReplace : StageOutcomes :=
  ⟨[("material", .str "steel")],
   stageOk [("material", .str "steel"), ("validated", .bool true)],
   stageOk [("est_params", .num 1)],
   stageFail "LCA failed", stageFail "Circularity failed", stageFail "Scenario failed",
   stageFail "Compliance failed", stageFail "Visualization failed", stageFail "Explain failed",
   stageFail "Critique failed", false⟩

/-- The worked example of the spec: Intake succeeds, Estimation fails,
both fan-out branches succeed, remaining optional stages fail. -/
def outcomesWorkedExample : StageOutcomes :=
  ⟨[("material", .str "steel")],
   stageOk [("material", .str "steel"), ("validated", .bool true)],
   stageFail "Estimation failed",
   stageOk [("gwp", .num 1800)],
   stageOk [("mci", .num (2 / 5 : Rat))],
   stageFail "Scenario failed", stageFail "Compliance failed", stageFail "Visualization failed",
   stageFail "Explain failed", stageFail "Critique failed", false⟩

/-- The required Intake/Validation stage fails. -/
def outcomesDataFail : StageOutcomes :=
  ⟨[("material", .str "steel")],
   stageFail "missing required field",
   stageOk [], stageOk [], stageOk [], stageOk [], stageOk [], stageOk [], stageOk [],
   stageOk [], true⟩

/-! ### Claims C2, C3, C6, C7 -/

/-- Counterexample to C2 as stated: a run in which only optional stages
fail (Intake and Estimation succeed, all later optional stages fail)
reaches Completed, yet the key `validated` contributed by the successful
Intake stage is absent from the final context, because a successful
Estimation stage *replaces* the context wholesale instead of merging
into it (server.py line 654). -/
theorem claim_C2_counterexample :
    (finalRecord (taskEvents outcomesEstReplace)).status = "completed" ∧
    outcomesEstReplace.dataRes.status = "success" ∧
    Dict.hasKey outcomesEstReplace.dataRes.data "validated" = true ∧
    Dict.hasKey (taskContext outcomesEstReplace) "validated" = false := by
  decide

/-- C2 (amended): for every run whose required Intake stage succeeds,
the run reaches Completed; a successful Intake or Estimation stage
replaces the context wholesale with its output, while successful LCA
and Circularity stages merge their output into the accumulated context
(shallow merge, last-writer-wins); hence every key of the last
context-replacing successful stage's output and every key output by a
successful LCA or Circularity stage is present in the final context. -/
theorem claim_C2 (o : StageOutcomes) (h : o.dataRes.status = "success") :
    (finalRecord (taskEvents o)).status = "completed" ∧
    (∀ k, Dict.hasKey (if o.estimationRes.status = "success" then o.estimationRes.data
        else o.dataRes.data) k = true → Dict.hasKey (taskContext o) k = true) ∧
    (o.lcaRes.status = "success" → ∀ k, Dict.hasKey o.lcaRes.data k = true →
        Dict.hasKey (taskContext o) k = true) ∧
    (o.circularityRes.status = "success" → ∀ k, Dict.hasKey o.circularityRes.data k = true →
        Dict.hasKey (taskContext o) k = true) := by
  have hctx : taskContext o =
      (if o.circularityRes.status = "success" then
        Dict.update (if o.lcaRes.status = "success" then
            Dict.update (if o.estimationRes.status = "success" then o.estimationRes.data
              else o.dataRes.data) o.lcaRes.data
          else (if o.estimationRes.status = "success" then o.estimationRes.data
              else o.dataRes.data)) o.circularityRes.data
      else (if o.lcaRes.status = "success" then
            Dict.update (if o.estimationRes.status = "success" then o.estimationRes.data
              else o.dataRes.data) o.lcaRes.data
          else (if o.estimationRes.status = "success" then o.estimationRes.data
              else o.dataRes.data))) := by
    simp only [taskContext]
    rw [if_pos h]
  refine ⟨?_, ?_, ?_, ?_⟩
  · simp only [finalRecord, taskEvents]
    rw [if_pos h]
    simp only [List.foldl_append]
    rfl
  · intro k hk0
    rw [hctx]
    by_cases hl : o.lcaRes.status = "success" <;> by_cases hc : o.circularityRes.status = "success"
    · rw [if_pos hc, if_pos hl]
      exact Dict.hasKey_update_left _ _ _ (Dict.hasKey_update_left _ _ _ hk0)
    · rw [if_neg hc, if_pos hl]
      exact Dict.hasKey_update_left _ _ _ hk0
    · rw [if_pos hc, if_neg hl]
      exact Dict.hasKey_update_left _ _ _ hk0
    · rw [if_neg hc, if_neg hl]
      exact hk0
  · intro hl k hk0
    rw [hctx]
    by_cases hc : o.circularityRes.status = "success"
    · rw [if_pos hc, if_pos hl]
      exact Dict.hasKey_update_left _ _ _ (Dict.hasKey_update_right _ _ _ hk0)
    · rw [if_neg hc, if_pos hl]
      exact Dict.hasKey_update_right _ _ _ hk0
  · intro hc k hk0
    rw [hctx, if_pos hc]
    exact Dict.hasKey_update_right _ _ _ hk0

/-- Witness for the amended C2, on the spec's worked example: Intake
succeeds with `material`/`validated`, Estimation fails, both fan-out
branches succeed with `gwp` and `mci`; the run completes and the final
context has all four keys. -/
theorem claim_C2_witness :
    (finalRecord (taskEvents outcomesWorkedExample)).status = "completed" ∧
    Dict.hasKey (taskContext outcomesWorkedExample) "validated" = true ∧
    Dict.hasKey (taskContext outcomesWorkedExample) "gwp" = true ∧
    Dict.hasKey (taskContext outcomesWorkedExample) "mci" = true := by
  obtain ⟨h1, h2, h3, h4⟩ := claim_C2 outcomesWorkedExample rfl
  exact ⟨h1, h2 "validated" (by decide), h3 rfl "gwp" (by decide), h4 rfl "mci" (by decide)⟩

/-- C3: when the required Intake/Validation stage (DataAgent, the first
declared stage) fails, the run record ends `failed` with the error set,
and no stage after DataAgent is ever invoked: the invocation trace and
the history contain exactly the DataAgent entry. -/
theorem claim_C3 (o : StageOutcomes) (h : ¬ o.dataRes.status = "success") :
    (finalRecord (taskEvents o)).status = "failed" ∧
    (finalRecord (taskEvents o)).error = some "Data Agent failed" ∧
    invokedAgents (taskEvents o) = ["DataAgent"] ∧
    taskHistory o = [("data_agent", o.dataRes)] := by
  refine ⟨?_, ?_, ?_, ?_⟩
  · simp only [finalRecord, taskEvents]
    rw [if_neg h]
    rfl
  · simp only [finalRecord, taskEvents]
    rw [if_neg h]
    rfl
  · simp only [invokedAgents, taskEvents]
    rw [if_neg h]
    rfl
  · simp only [taskHistory]
    rw [if_neg h]

/-- Witness for C3: a concrete run whose Intake stage returns a Failure
envelope. -/
theorem claim_C3_witness :
    (finalRecord (taskEvents outcomesDataFail)).status = "failed" ∧
    (finalRecord (taskEvents outcomesDataFail)).error = some "Data Agent failed" ∧
    invokedAgents (taskEvents outcomesDataFail) = ["DataAgent"] ∧
    taskHistory outcomesDataFail = [("data_agent", outcomesDataFail.dataRes)] :=
  claim_C3 outcomesDataFail (by decide)

/-- C6: across every run — whatever each stage returns and whether the
report save succeeds — the sequence of progress values written to the
run record, starting from the 0 set at creation, is non-decreasing. -/
theorem claim_C6 (o : StageOutcomes) :
    List.Chain' (· ≤ ·) (initialRunRecord.progress :: (taskEvents o).filterMap progressOf) := by
  by_cases h : o.dataRes.status = "success"
  · have hp : (taskEvents o).filterMap progressOf =
        [10, 20, 35, 50, 60, 70, 80, 90, 95, 100] := by
      simp only [taskEvents]
      rw [if_pos h]
      simp only [List.filterMap_append, progress_optStep, progress_explainStep]
      rfl
    rw [hp]
    norm_num [initialRunRecord, List.chain'_cons, List.chain'_singleton]
  · have hp : (taskEvents o).filterMap progressOf = [10] := by
      simp only [taskEvents]
      rw [if_neg h]
      rfl
    rw [hp]
    norm_num [initialRunRecord, List.chain'_cons, List.chain'_singleton]

/-- Counterexample to C7 as stated: in an all-success run, after the
status is set to `completed` the task reassigns `progress`,
`current_agent`, `completed_at` and `result` and appends one more log
entry (server.py 825-831), so mutations of the record do occur after
the terminal status is set. -/
theorem claim_C7_counterexample :
    ¬ ((afterFirstTerminal (taskEvents outcomesAllOk)).filter isRecordMutation = []) := by
  decide

/-- C7 (amended): once the terminal status is set, the status is never
reassigned and no further stage is invoked; the only later mutations
are the finalization writes of the same finalization step (progress set
to 100, `current_agent` cleared, `completed_at`, `result`, `error`) and
at most one final log entry, after which the record is never touched. -/
theorem claim_C7 (o : StageOutcomes) :
    (∀ e ∈ afterFirstTerminal (taskEvents o), isFinalizationWrite e = true) ∧
    ((afterFirstTerminal (taskEvents o)).filter isAppendLog).length ≤ 1 := by
  by_cases h : o.dataRes.status = "success"
  · have hA : afterFirstTerminal (taskEvents o) =
        [.setProgress 100, .setCurrentAgent none, .setCompletedAt, .setResult,
         .appendLog "Orchestrator" "success" "Multi-agent analysis complete!"] := by
      simp only [taskEvents]
      rw [if_pos h]
      rw [afterFirstTerminal_append _ _ (by decide)]
      rw [afterFirstTerminal_append _ _
        (noTerminal_append (noTerminal_append (noTerminal_append (noTerminal_append
          (noTerminal_append (noTerminal_append (noTerminal_append (noTerminal_append
            (by decide)
            (noTerminal_optStep _ _ _ _ _ _)) (noTerminal_optStep _ _ _ _ _ _))
            (noTerminal_optStep _ _ _ _ _ _)) (noTerminal_optStep _ _ _ _ _ _))
            (noTerminal_optStep _ _ _ _ _ _)) (noTerminal_optStep _ _ _ _ _ _))
            (noTerminal_explainStep _ _)) (noTerminal_optStep _ _ _ _ _ _))]
      rfl
    rw [hA]
    exact ⟨by decide, by decide⟩
  · have hA : afterFirstTerminal (taskEvents o) = [.setError "Data Agent failed"] := by
      simp only [taskEvents]
      rw [if_neg h]
      rw [afterFirstTerminal_append _ _ (by decide)]
      rfl
    rw [hA]
    exact ⟨by decide, by decide⟩

/-! ## The fan-out group (src/circu_metal/orchestrator/orchestrator.py)

`ParallelAgent.process` runs both branch agents through
`run_with_retry` and gathers the results; if either branch raises, the
gather — and hence `process` — raises.  `Orchestrator.run` (lines
192-220) wraps the call in `try/except`: on an exception it proceeds
with an empty aggregate, so neither branch's output reaches the
context; otherwise each branch's parsed text merges its `data` map
into the context when it is a dict with a `data` key.
A branch attempt ends in the agent's final text, modelled by its parse
(`withData` for a dict carrying `data`, `withoutData` otherwise), or in
a raised exception.
-/

inductive ParsedText where
  | withData (data : Dict Value)
  | withoutData

/-- `run_single_agent_with_retry` for one branch: the branch attempts
are wrapped by `run_with_retry` with its default arguments
(`retries=5`, `initial_delay=60`). -/
def run_single_agent_with_retry (op : Nat → CallOutcome ParsedText) :
    Except (Option String) ParsedText :=
  (run_with_retry op 5 60).outcome

/-- The context after the fan-out section of `Orchestrator.run`: if
either branch raises, the parallel aggregate is discarded
(`parallel_res = {}`) and nothing merges; otherwise each branch's
`data` (when present) is merged, LCA first, Circularity second. -/
def fanOutMerge (context : Dict Value) (lcaOp circOp : Nat → CallOutcome ParsedText) :
    Dict Value :=
  match run_single_agent_with_retry lcaOp with
  | .error _ => context
  | .ok l =>
    match run_single_agent_with_retry circOp with
    | .error _ => context
    | .ok c =>
      let context2 := match l with
        | .withData d => Dict.update context d
        | .withoutData => context
      match c with
      | .withData d => Dict.update context2 d
      | .withoutData => context2

def ctxFanOut : Dict Value := [("material", Value.str "steel")]

def lcaOpRaises : Nat → CallOutcome ParsedText :=
  fun _ => .failure "500 internal server error"

def circOpOk : Nat → CallOutcome ParsedText :=
  fun _ => .success (.withData [("mci", Value.num 1)])

def lcaOpOk : Nat → CallOutcome ParsedText :=
  fun _ => .success (.withData [("gwp", Value.num 1800)])

/-- Counterexample to C5 as stated: the LCA branch raises a
non-transient error while the Circularity branch succeeds with key
`mci`; `asyncio.gather` propagates the exception, `Orchestrator.run`
falls into its `except` with an empty aggregate, and the surviving
branch's key `mci` is *not* in the post-fan-out context. -/
theorem claim_C5_counterexample :
    (run_single_agent_with_retry circOpOk = .ok (.withData [("mci", Value.num 1)])) ∧
    (run_single_agent_with_retry lcaOpRaises = .error (some "500 internal server error")) ∧
    Dict.hasKey (fanOutMerge ctxFanOut lcaOpRaises circOpOk) "mci" = false := by
  exact ⟨rfl, rfl, rfl⟩

/-- C5 (amended): if both branches succeed, the post-fan-out context
contains the union of both branches' output keys (and all prior
context keys); if either branch raises — for example after exhausting
its retries — the whole parallel aggregate is discarded and the
context is left unchanged, losing the surviving branch's keys as well,
while the run itself continues. -/
theorem claim_C5 (context : Dict Value) (lcaOp circOp : Nat → CallOutcome ParsedText)
    (ld cd : Dict Value) :
    (run_single_agent_with_retry lcaOp = .ok (.withData ld) →
     run_single_agent_with_retry circOp = .ok (.withData cd) →
     (∀ k, Dict.hasKey ld k = true → Dict.hasKey (fanOutMerge context lcaOp circOp) k = true) ∧
     (∀ k, Dict.hasKey cd k = true → Dict.hasKey (fanOutMerge context lcaOp circOp) k = true) ∧
     (∀ k, Dict.hasKey context k = true → Dict.hasKey (fanOutMerge context lcaOp circOp) k = true)) ∧
    (∀ e, run_single_agent_with_retry lcaOp = .error e →
      fanOutMerge context lcaOp circOp = context) ∧
    (∀ e, run_single_agent_with_retry circOp = .error e →
      fanOutMerge context lcaOp circOp = context) := by
  refine ⟨?_, ?_, ?_⟩
  · intro hl hc
    have hmerge : fanOutMerge context lcaOp circOp =
        Dict.update (Dict.update context ld) cd := by
      simp only [fanOutMerge, hl, hc]
    rw [hmerge]
    exact ⟨fun k hk => Dict.hasKey_update_left _ _ _ (Dict.hasKey_update_right _ _ _ hk),
           fun k hk => Dict.hasKey_update_right _ _ _ hk,
           fun k hk => Dict.hasKey_update_left _ _ _ (Dict.hasKey_update_left _ _ _ hk)⟩
  · intro e he
    simp only [fanOutMerge, he]
  · intro e he
    cases hl : run_single_agent_with_retry lcaOp with
    | error e2 => simp only [fanOutMerge, hl]
    | ok l => simp only [fanOutMerge, hl, he]

/-- Witness for the amended C5: both branches succeeding yields a
context with `material`, `gwp` and `mci`; a raising LCA branch leaves
the context untouched. -/
theorem claim_C5_witness :
    Dict.hasKey (fanOutMerge ctxFanOut lcaOpOk circOpOk) "gwp" = true ∧
    Dict.hasKey (fanOutMerge ctxFanOut lcaOpOk circOpOk) "mci" = true ∧
    Dict.hasKey (fanOutMerge ctxFanOut lcaOpOk circOpOk) "material" = true ∧
    fanOutMerge ctxFanOut lcaOpRaises circOpOk = ctxFanOut := by
  obtain ⟨hboth, herr, _⟩ :=
    claim_C5 ctxFanOut lcaOpOk circOpOk [("gwp", Value.num 1800)] [("mci", Value.num 1)]
  obtain ⟨h1, h2, h3⟩ := hboth rfl rfl
  obtain ⟨_, herr2, _⟩ :=
    claim_C5 ctxFanOut lcaOpRaises circOpOk [] []
  exact ⟨h1 "gwp" rfl, h2 "mci" rfl, h3 "material" rfl,
         herr2 (some "500 internal server error") rfl⟩

/-! ## Status and result queries (src/api/server.py 845-879)

Both endpoints read `orchestration_runs` and build a response; the
registry itself is returned unchanged by the embedding (the handlers
perform no write), making read-only-ness and idempotence explicit.
-/

/-- One entry of `orchestration_runs`, as read by the two query
endpoints. -/
structure RunSnapshot where
  status : String
  progress : Nat
  current_agent : Option String
  logs : List (String × String × String)
  created_at : String
  completed_at : Option String
  error : Option String
  result : Option (Dict StageResult)

structure HTTPError where
  status_code : Nat
  detail : String
  deriving DecidableEq, Repr

structure StatusResponse where
  run_id : String
  status : String
  progress : Nat
  current_agent : Option String
  logs : List (String × String × String)
  created_at : String
  completed_at : Option String
  error : Option String

structure ResultResponse where
  run_id : String
  status : String
  result : Option (Dict StageResult)
  logs : List (String × String × String)

/-- `GET /api/orchestration/(run_id)/status`. -/
def get_orchestration_status (runs : Dict RunSnapshot) (run_id : String) :
    Dict RunSnapshot × Except HTTPError StatusResponse :=
  match Dict.get? runs run_id with
  | none => (runs, .error ⟨404, "Run not found"⟩)
  | some run =>
      (runs, .ok ⟨run_id, run.status, run.progress, run.current_agent, run.logs,
        run.created_at, run.completed_at, run.error⟩)

/-- `GET /api/orchestration/(run_id)/result`. -/
def get_orchestration_result (runs : Dict RunSnapshot) (run_id : String) :
    Dict RunSnapshot × Except HTTPError ResultResponse :=
  match Dict.get? runs run_id with
  | none => (runs, .error ⟨404, "Run not found"⟩)
  | some run =>
      if run.status ≠ "completed" then
        (runs, .error ⟨400, "Run not completed. Status: " ++ run.status⟩)
      else
        (runs, .ok ⟨run_id, run.status, run.result, run.logs⟩)

/-- C8: the result query succeeds exactly when the run exists with
status `completed`; a missing run yields 404 `Run not found`, a
non-completed run yields 400 naming the current status; neither query
writes the registry, so repeated polling always returns the same
answer. -/
theorem claim_C8 (runs : Dict RunSnapshot) (run_id : String) :
    (get_orchestration_status runs run_id).1 = runs ∧
    (get_orchestration_result runs run_id).1 = runs ∧
    (get_orchestration_result (get_orchestration_result runs run_id).1 run_id =
      get_orchestration_result runs run_id ∧
     get_orchestration_status (get_orchestration_status runs run_id).1 run_id =
      get_orchestration_status runs run_id) ∧
    (Dict.get? runs run_id = none →
      (get_orchestration_result runs run_id).2 = .error ⟨404, "Run not found"⟩ ∧
      (get_orchestration_status runs run_id).2 = .error ⟨404, "Run not found"⟩) ∧
    (∀ run, Dict.get? runs run_id = some run →
      (run.status = "completed" →
        (get_orchestration_result runs run_id).2 =
          .ok ⟨run_id, run.status, run.result, run.logs⟩) ∧
      (¬ run.status = "completed" →
        (get_orchestration_result runs run_id).2 =
          .error ⟨400, "Run not completed. Status: " ++ run.status⟩)) ∧
    ((∃ resp, (get_orchestration_result runs run_id).2 = .ok resp) ↔
      (∃ run, Dict.get? runs run_id = some run ∧ run.status = "completed")) := by
  have hstatus1 : (get_orchestration_status runs run_id).1 = runs := by
    unfold get_orchestration_status
    cases Dict.get? runs run_id <;> rfl
  have hresult1 : (get_orchestration_result runs run_id).1 = runs := by
    unfold get_orchestration_result
    cases Dict.get? runs run_id with
    | none => rfl
    | some run =>
      by_cases h : run.status = "completed" <;> simp [h]
  refine ⟨hstatus1, hresult1, ⟨by rw [hresult1], by rw [hstatus1]⟩, ?_, ?_, ?_⟩
  · intro hnone
    unfold get_orchestration_result get_orchestration_status
    rw [hnone]
    exact ⟨rfl, rfl⟩
  · intro run hsome
    unfold get_orchestration_result
    rw [hsome]
    constructor
    · intro hc
      simp [hc]
    · intro hc
      simp [hc]
  · constructor
    · rintro ⟨resp, hresp⟩
      unfold get_orchestration_result at hresp
      cases hget : Dict.get? runs run_id with
      | none =>
        rw [hget] at hresp
        exact absurd hresp (by simp)
      | some run =>
        rw [hget] at hresp
        by_cases hc : run.status = "completed"
        · exact ⟨run, rfl, hc⟩
        · exfalso
          simp [hc] at hresp
    · rintro ⟨run, hget, hc⟩
      unfold get_orchestration_result
      rw [hget]
      refine ⟨⟨run_id, run.status, run.result, run.logs⟩, ?_⟩
      simp [hc]

def snapDone : RunSnapshot :=
  ⟨"completed", 100, none, [], "t0", some "t1", none, some []⟩

def snapRunning : RunSnapshot :=
  ⟨"running", 50, some "LCAAgent", [], "t2", none, none, none⟩

def runsC8 : Dict RunSnapshot := [("done1", snapDone), ("run2", snapRunning)]

/-- Witness for C8 on a concrete registry: a completed run returns its
result, a running run yields 400 naming the status, a missing id
yields 404, and the registry is unchanged by each call. -/
theorem claim_C8_witness :
    (get_orchestration_result runsC8 "done1").2 =
      .ok ⟨"done1", "completed", some [], []⟩ ∧
    (get_orchestration_result runsC8 "run2").2 =
      .error ⟨400, "Run not completed. Status: " ++ "running"⟩ ∧
    (get_orchestration_result runsC8 "missing").2 = .error ⟨404, "Run not found"⟩ ∧
    (get_orchestration_result runsC8 "done1").1 = runsC8 := by
  have h1 := ((claim_C8 runsC8 "done1").2.2.2.2.1 snapDone rfl).1 rfl
  have h2 := ((claim_C8 runsC8 "run2").2.2.2.2.1 snapRunning rfl).2 (by decide)
  have h3 := ((claim_C8 runsC8 "missing").2.2.2.1 rfl).1
  exact ⟨h1, h2, h3, (claim_C8 runsC8 "done1").2.1⟩

/-! ### More dictionary lemmas, for `setdefault` -/

theorem Dict.hasKey_eq_false_iff {α : Type} (d : Dict α) (k : String) :
    Dict.hasKey d k = false ↔ Dict.get? d k = none := by
  unfold Dict.hasKey
  cases Dict.get? d k <;> simp

theorem Dict.get?_append_of_hasKey {α : Type} (d1 d2 : Dict α) (k : String)
    (h : Dict.hasKey d1 k = true) : Dict.get? (d1 ++ d2) k = Dict.get? d1 k := by
  induction d1 with
  | nil => simp [Dict.hasKey, Dict.get?] at h
  | cons a rest ih =>
    by_cases ha : a.1 = k
    · simp [Dict.get?, ha]
    · have h2 : Dict.hasKey rest k = true := by
        simpa [Dict.hasKey, Dict.get?, ha] using h
      simpa [Dict.get?, ha] using ih h2

theorem Dict.get?_append_of_absent {α : Type} (d1 d2 : Dict α) (k : String)
    (h : Dict.hasKey d1 k = false) : Dict.get? (d1 ++ d2) k = Dict.get? d2 k := by
  induction d1 with
  | nil => rfl
  | cons a rest ih =>
    by_cases ha : a.1 = k
    · simp [Dict.hasKey, Dict.get?, ha] at h
    · have h2 : Dict.hasKey rest k = false := by
        simpa [Dict.hasKey, Dict.get?, ha] using h
      simpa [Dict.get?, ha] using ih h2

theorem Dict.get?_setdefault_ne {α : Type} (d : Dict α) (k2 k : String) (v : α)
    (h : ¬ k2 = k) : Dict.get? (Dict.setdefault d k2 v) k = Dict.get? d k := by
  unfold Dict.setdefault
  by_cases hd : Dict.hasKey d k2 = true
  · simp [hd]
  · have hd2 : Dict.hasKey d k2 = false := by simpa using hd
    simp only [hd2, Bool.false_eq_true, if_false, ite_false]
    by_cases hk : Dict.hasKey d k = true
    · exact Dict.get?_append_of_hasKey _ _ _ hk
    · have hk2 : Dict.hasKey d k = false := by simpa using hk
      rw [Dict.get?_append_of_absent _ _ _ hk2]
      rw [(Dict.hasKey_eq_false_iff d k).mp hk2]
      simp [Dict.get?, h]

theorem Dict.get?_setdefault_absent {α : Type} (d : Dict α) (k : String) (v : α)
    (h : Dict.hasKey d k = false) :
    Dict.get? (Dict.setdefault d k v) k = some v := by
  unfold Dict.setdefault
  simp only [h, Bool.false_eq_true, if_false, ite_false]
  rw [Dict.get?_append_of_absent _ _ _ h]
  simp [Dict.get?]

theorem Dict.hasKey_setdefault_self {α : Type} (d : Dict α) (k : String) (v : α) :
    Dict.hasKey (Dict.setdefault d k v) k = true := by
  by_cases h : Dict.hasKey d k = true
  · unfold Dict.setdefault
    simp [h]
  · have h2 : Dict.hasKey d k = false := by simpa using h
    unfold Dict.hasKey
    rw [Dict.get?_setdefault_absent d k v h2]
    rfl

theorem Dict.hasKey_setdefault_mono {α : Type} (d : Dict α) (k2 k : String) (v : α)
    (h : Dict.hasKey d k = true) :
    Dict.hasKey (Dict.setdefault d k2 v) k = true := by
  by_cases hne : k2 = k
  · subst hne
    exact Dict.hasKey_setdefault_self d k2 v
  · unfold Dict.hasKey
    rw [Dict.get?_setdefault_ne d k2 k v hne]
    exact h

/-! ## The stage entry point (src/circu_metal/agents/base_agent.py)

`BaseCircuMetalAgent.handle` wraps `_async_handle` in `run_with_retry`
and never lets an exception escape: any raise becomes the structured
failure envelope.  One `_async_handle` attempt runs the LLM and parses
its response: the LLM call may raise; the parse may produce a dict
(then the standard fields are defaulted in) or a non-dict JSON value,
on which `result.setdefault` raises `AttributeError` (modelled with
the apostrophes of the Python message elided; the message matches no
rate-limit signal either way).  `execution_time_ms` is wall-clock time
supplied here as a parameter. -/

def errText : Option String → String
  | some m => m
  | none => "None"

inductive LLMOutcome where
  | raises (msg : String)
  | returnsDict (d : Dict Value)
  | returnsNonDict

/-- `_async_handle` lines 415-419: default the standard fields into the
parsed response (`setdefault`, so present values are kept unchanged —
in particular an out-of-range `confidence` is not clamped). -/
def ensure_standard_fields (d : Dict Value) : Dict Value :=
  (((Dict.setdefault d "status" (.str "success")).setdefault "data" (.obj [])).setdefault
    "log" (.str "")).setdefault "confidence" (.num (4 / 5 : Rat))

/-- One `_async_handle` attempt as seen by `run_with_retry`. -/
def async_handle_attempt : LLMOutcome → CallOutcome (Dict Value)
  | .raises msg => .failure msg
  | .returnsNonDict => .failure "AttributeError: list object has no attribute setdefault"
  | .returnsDict d => .success (ensure_standard_fields d)

/-- `BaseCircuMetalAgent.handle` lines 366-397. -/
def handle (agentName agentId runId : String) (execTimeMs : Int)
    (llm : Nat → LLMOutcome) (retries initial_delay : Nat) : Dict Value :=
  match (run_with_retry (fun i => async_handle_attempt (llm i)) retries initial_delay).outcome with
  | .ok result =>
      ((Dict.setdefault result "execution_time_ms" (.num (execTimeMs : Rat))).setdefault
        "agent_id" (.str agentId)).setdefault "run_id" (.str runId)
  | .error e =>
      [("status", .str "failure"), ("data", .obj []),
       ("log", .str ("Error in " ++ agentName ++ ": " ++ errText e)),
       ("confidence", .num 0), ("agent_id", .str agentId), ("run_id", .str runId)]

theorem run_with_retry_ok_origin {α : Type} (op : Nat → CallOutcome α)
    (retries initial_delay : Nat) (v : α)
    (h : (run_with_retry op retries initial_delay).outcome = .ok v) :
    ∃ j, op j = .success v := by
  obtain ⟨j, hj⟩ := retryAux_ok_origin op retries 0 initial_delay v h
  exact ⟨j, by simpa using hj⟩

/-- Counterexample to C9 as stated: when the parsed LLM response
carries `confidence = 3/2`, `handle` returns it unchanged — there is
no clamping to [0,1] anywhere in `handle`/`_async_handle`. -/
def llmBadConfidence : Nat → LLMOutcome :=
  fun _ => .returnsDict [("confidence", Value.num (3 / 2 : Rat))]

theorem claim_C9_counterexample :
    Dict.get? (handle "data_agent" "agent-1" "run-1" 5 llmBadConfidence 5 60) "confidence" =
      some (Value.num (3 / 2 : Rat)) ∧
    ¬ ((3 / 2 : Rat) ≤ 1) := by
  refine ⟨rfl, by norm_num⟩

/-- C9 (amended): every envelope returned by `handle` has a `data` key
(possibly the empty map), also on failure; `confidence` is *not*
clamped — when the parsed response omits it, the defaults 0.8 (success
parse) and 0.0 (failure envelope) apply, both inside [0,1], but a
supplied out-of-range value is passed through unchanged. -/
theorem claim_C9 (agentName agentId runId : String) (execTimeMs : Int)
    (llm : Nat → LLMOutcome) (retries initial_delay : Nat) :
    Dict.hasKey (handle agentName agentId runId execTimeMs llm retries initial_delay)
      "data" = true ∧
    ((∀ i d, llm i = .returnsDict d → Dict.get? d "confidence" = none) →
      ∃ q : Rat,
        Dict.get? (handle agentName agentId runId execTimeMs llm retries initial_delay)
          "confidence" = some (.num q) ∧ 0 ≤ q ∧ q ≤ 1) := by
  cases houtcome : (run_with_retry (fun i => async_handle_attempt (llm i))
      retries initial_delay).outcome with
  | error e =>
    have hh : handle agentName agentId runId execTimeMs llm retries initial_delay =
        [("status", .str "failure"), ("data", .obj []),
         ("log", .str ("Error in " ++ agentName ++ ": " ++ errText e)),
         ("confidence", .num 0), ("agent_id", .str agentId), ("run_id", .str runId)] := by
      simp only [handle, houtcome]
    refine ⟨by rw [hh]; rfl, fun _ => ⟨0, by rw [hh]; rfl, by norm_num, by norm_num⟩⟩
  | ok r =>
    have hh : handle agentName agentId runId execTimeMs llm retries initial_delay =
        ((Dict.setdefault r "execution_time_ms" (.num (execTimeMs : Rat))).setdefault
          "agent_id" (.str agentId)).setdefault "run_id" (.str runId) := by
      simp only [handle, houtcome]
    obtain ⟨j, hj⟩ := run_with_retry_ok_origin _ _ _ _ houtcome
    cases hllm : llm j with
    | raises m =>
      rw [hllm] at hj
      exact absurd hj (by simp [async_handle_attempt])
    | returnsNonDict =>
      rw [hllm] at hj
      exact absurd hj (by simp [async_handle_attempt])
    | returnsDict d =>
      rw [hllm] at hj
      have hr : r = ensure_standard_fields d := by
        have hj2 : (.success (ensure_standard_fields d) : CallOutcome (Dict Value)) =
            .success r := hj
        injection hj2 with h2
        exact h2.symm
      constructor
      · have hdata : Dict.hasKey r "data" = true := by
          rw [hr]
          unfold ensure_standard_fields
          exact Dict.hasKey_setdefault_mono _ _ _ _
            (Dict.hasKey_setdefault_mono _ _ _ _
              (Dict.hasKey_setdefault_self _ _ _))
        rw [hh]
        exact Dict.hasKey_setdefault_mono _ _ _ _
          (Dict.hasKey_setdefault_mono _ _ _ _
            (Dict.hasKey_setdefault_mono _ _ _ _ hdata))
      · intro hconf
        have hcd : Dict.get? d "confidence" = none := hconf j d hllm
        have hc3 : Dict.get? (((Dict.setdefault d "status" (.str "success")).setdefault
            "data" (.obj [])).setdefault "log" (.str "")) "confidence" = none := by
          rw [Dict.get?_setdefault_ne _ _ _ _ (by decide),
              Dict.get?_setdefault_ne _ _ _ _ (by decide),
              Dict.get?_setdefault_ne _ _ _ _ (by decide)]
          exact hcd
        have hens : Dict.get? (ensure_standard_fields d) "confidence" =
            some (.num (4 / 5 : Rat)) := by
          unfold ensure_standard_fields
          exact Dict.get?_setdefault_absent _ _ _
            ((Dict.hasKey_eq_false_iff _ _).mpr hc3)
        refine ⟨(4 / 5 : Rat), ?_, by norm_num, by norm_num⟩
        rw [hh]
        rw [Dict.get?_setdefault_ne _ _ _ _ (by decide),
            Dict.get?_setdefault_ne _ _ _ _ (by decide),
            Dict.get?_setdefault_ne _ _ _ _ (by decide)]
        rw [hr]
        exact hens

def llmNoConfidence : Nat → LLMOutcome :=
  fun _ => .returnsDict [("material", Value.str "steel")]

/-- Witness for the amended C9: an LLM response without a `confidence`
key yields an envelope with `data` present and `confidence = 0.8`. -/
theorem claim_C9_witness :
    Dict.hasKey (handle "data_agent" "agent-1" "run-1" 5 llmNoConfidence 5 60) "data" = true ∧
    ∃ q : Rat, Dict.get? (handle "data_agent" "agent-1" "run-1" 5 llmNoConfidence 5 60)
        "confidence" = some (.num q) ∧ 0 ≤ q ∧ q ≤ 1 := by
  obtain ⟨h1, h2⟩ := claim_C9 "data_agent" "agent-1" "run-1" 5 llmNoConfidence 5 60
  refine ⟨h1, h2 ?_⟩
  intro i d hd
  injection hd with h3
  rw [← h3]
  rfl

/-- C10: `handle` never propagates an exception: when the retried
inner processing ends in a raise, it returns exactly the failure
envelope — status `failure`, empty `data`, `confidence` 0, a log
naming the agent and the exception text, plus `agent_id`/`run_id` —
and on success it returns the processed result with
`execution_time_ms`, `agent_id` and `run_id` defaulted in (present in
the returned envelope). -/
theorem claim_C10 (agentName agentId runId : String) (execTimeMs : Int)
    (llm : Nat → LLMOutcome) (retries initial_delay : Nat) :
    (∀ e, (run_with_retry (fun i => async_handle_attempt (llm i))
        retries initial_delay).outcome = .error e →
      handle agentName agentId runId execTimeMs llm retries initial_delay =
        [("status", .str "failure"), ("data", .obj []),
         ("log", .str ("Error in " ++ agentName ++ ": " ++ errText e)),
         ("confidence", .num 0), ("agent_id", .str agentId), ("run_id", .str runId)]) ∧
    (∀ r, (run_with_retry (fun i => async_handle_attempt (llm i))
        retries initial_delay).outcome = .ok r →
      handle agentName agentId runId execTimeMs llm retries initial_delay =
        ((Dict.setdefault r "execution_time_ms" (.num (execTimeMs : Rat))).setdefault
          "agent_id" (.str agentId)).setdefault "run_id" (.str runId) ∧
      Dict.hasKey (handle agentName agentId runId execTimeMs llm retries initial_delay)
        "execution_time_ms" = true ∧
      Dict.hasKey (handle agentName agentId runId execTimeMs llm retries initial_delay)
        "agent_id" = true ∧
      Dict.hasKey (handle agentName agentId runId execTimeMs llm retries initial_delay)
        "run_id" = true) := by
  constructor
  · intro e he
    simp only [handle, he]
  · intro r hr
    have hh : handle agentName agentId runId execTimeMs llm retries initial_delay =
        ((Dict.setdefault r "execution_time_ms" (.num (execTimeMs : Rat))).setdefault
          "agent_id" (.str agentId)).setdefault "run_id" (.str runId) := by
      simp only [handle, hr]
    refine ⟨hh, ?_, ?_, ?_⟩
    · rw [hh]
      exact Dict.hasKey_setdefault_mono _ _ _ _
        (Dict.hasKey_setdefault_mono _ _ _ _ (Dict.hasKey_setdefault_self _ _ _))
    · rw [hh]
      exact Dict.hasKey_setdefault_mono _ _ _ _ (Dict.hasKey_setdefault_self _ _ _)
    · rw [hh]
      exact Dict.hasKey_setdefault_self _ _ _

def llmRaisesBoom : Nat → LLMOutcome := fun _ => .raises "boom"

def llmOkSimple : Nat → LLMOutcome :=
  fun _ => .returnsDict [("validated", Value.bool true)]

/-- Witness for C10: a raising inner processing yields the failure
envelope naming the agent and the exception text; a successful one
yields an envelope carrying `run_id`. -/
theorem claim_C10_witness :
    handle "data_agent" "agent-1" "run-1" 5 llmRaisesBoom 5 60 =
      [("status", .str "failure"), ("data", .obj []),
       ("log", .str ("Error in " ++ "data_agent" ++ ": " ++ errText (some "boom"))),
       ("confidence", .num 0), ("agent_id", .str "agent-1"), ("run_id", .str "run-1")] ∧
    Dict.hasKey (handle "data_agent" "agent-1" "run-1" 5 llmOkSimple 5 60) "run_id" = true := by
  have h1 := (claim_C10 "data_agent" "agent-1" "run-1" 5 llmRaisesBoom 5 60).1
    (some "boom") rfl
  have h2 := ((claim_C10 "data_agent" "agent-1" "run-1" 5 llmOkSimple 5 60).2
    (ensure_standard_fields [("validated", Value.bool true)]) rfl).2.2.2
  exact ⟨h1, h2⟩

end CircuMetal
